import Mathlib

/-!
Verification of the source-registry and multi-source dispatch layer of the
martin tile server (`src/martin/src/source.rs`), as a shallow embedding.

The registry (`TileSources`) wraps a `HashMap<String, Box<dyn Source>>`.
The claims only touch the pure, synchronous observations of a `Source`
(`get_id`, `get_tilejson`, `get_tile_info`, `support_url_query`) together
with the default methods `is_valid_zoom` and `get_catalog_entry`, so a
source is embedded as a record of those observations; the asynchronous
`get_tile` and the `clone_source` capability play no role in any claim.
All registry operations are pure functions here, which also models the fact
that none of them mutates the registry.
-/

set_option autoImplicit false

/-- Modelled from the spec: the Tile Format Descriptor (the external
`martin_tile_utils::TileInfo`, not part of this source tree): a
content-type plus an optional content-encoding, equality-comparable in
both fields. -/
structure TileInfo where
  contentType : String
  contentEncoding : Option String
deriving DecidableEq, Repr

/-- Modelled from the spec: the textual rendering of a Tile Format
Descriptor used in diagnostics (the external type implements `Display`);
it names the content-type and, when present, the content-encoding. -/
def TileInfo.display (i : TileInfo) : String :=
  match i.contentEncoding with
  | none => i.contentType
  | some e => i.contentType ++ " encoding " ++ e

/-- Modelled from the spec: the fields of the external Metadata Document
(`tilejson::TileJSON`) that this layer reads: optional minimum and maximum
zoom (`u8` values, embedded as `Nat`) and optional display name,
description and attribution. -/
structure TileJSON where
  minzoom : Option Nat
  maxzoom : Option Nat
  name : Option String
  description : Option String
  attribution : Option String
deriving DecidableEq, Repr

/-- Shallow embedding of a `Source` trait object (source.rs:98-130): the
record of its pure observations. -/
structure Src where
  id : String
  tilejson : TileJSON
  tileInfo : TileInfo
  supportUrlQuery : Bool
deriving DecidableEq, Repr

/-- Embedding of `Source::get_id`. -/
def Src.get_id (s : Src) : String := s.id

/-- Embedding of `Source::get_tilejson`. -/
def Src.get_tilejson (s : Src) : TileJSON := s.tilejson

/-- Embedding of `Source::get_tile_info`. -/
def Src.get_tile_info (s : Src) : TileInfo := s.tileInfo

/-- Embedding of `Source::support_url_query`. -/
def Src.support_url_query (s : Src) : Bool := s.supportUrlQuery

/-- Embedding of the default method `Source::is_valid_zoom`
(source.rs:112-116): `tj.minzoom.map_or(true, |minzoom| zoom >= minzoom)
&& tj.maxzoom.map_or(true, |maxzoom| zoom <= maxzoom)`. -/
def Src.is_valid_zoom (s : Src) (zoom : Nat) : Bool :=
  (match s.get_tilejson.minzoom with
   | none => true
   | some minzoom => decide (minzoom ≤ zoom)) &&
  (match s.get_tilejson.maxzoom with
   | none => true
   | some maxzoom => decide (zoom ≤ maxzoom))

/-- Embedding of `CatalogSourceEntry` (source.rs:138-149). -/
structure CatalogSourceEntry where
  content_type : String
  content_encoding : Option String
  name : Option String
  description : Option String
  attribution : Option String
deriving DecidableEq, Repr

/-- Embedding of the default method `Source::get_catalog_entry`
(source.rs:118-129): the display name is kept only when it differs from
the identifier, the content-encoding is the format's optional
content-encoding, and description and attribution are propagated as-is. -/
def Src.get_catalog_entry (s : Src) : CatalogSourceEntry :=
  { content_type := s.get_tile_info.contentType
    content_encoding := s.get_tile_info.contentEncoding
    name := s.get_tilejson.name.filter (fun v => decide (v ≠ s.get_id))
    description := s.get_tilejson.description
    attribution := s.get_tilejson.attribution }

/-- Embedding of an `actix_web::Error` as observed by this layer: an HTTP
status code together with the message of the wrapped error. -/
structure ActixError where
  status : Nat
  msg : String
deriving DecidableEq, Repr

/-- Embedding of `actix_web::error::ErrorNotFound`: wraps a message into a
404 Not Found response error. Both failure paths of this layer go through
this constructor (source.rs:49 and source.rs:69). -/
def errorNotFound (msg : String) : ActixError := ⟨404, msg⟩

/-- Embedding of `TileSources` (source.rs:22), a
`HashMap<String, Box<dyn Source>>` modelled as its list of key-value
entries. Construction through `TileSources.new` keeps the keys distinct;
the hash map's unspecified iteration order is unobservable in the claims
(lookups are by key and the catalog is sorted). -/
structure TileSources where
  entries : List (String × Src)
deriving DecidableEq, Repr

/-- Modelled `HashMap` insertion: inserting an already-present key replaces
the stored value in place (last write wins, as with Rust `HashMap` and
`collect`); a fresh key is appended. -/
def hmInsert (m : List (String × Src)) (k : String) (v : Src) :
    List (String × Src) :=
  if m.any (fun p => decide (p.1 = k)) then
    m.map (fun p => if p.1 = k then (k, v) else p)
  else m ++ [(k, v)]

/-- Embedding of `TileSources::new` (source.rs:27-35): flatten the
contributed source lists and collect the `(src.get_id(), src)` pairs into
a `HashMap` (duplicate identifiers silently overwrite, last write wins). -/
def TileSources.new (sources : List (List Src)) : TileSources :=
  ⟨sources.flatten.foldl (fun m src => hmInsert m src.get_id src) []⟩

/-- Embedding of `TileSources::get_catalog` (source.rs:37-43): map every
entry to its catalog entry and sort ascending by identifier; the
`BTreeMap` result is modelled as the sorted association list. -/
def TileSources.get_catalog (ts : TileSources) :
    List (String × CatalogSourceEntry) :=
  (ts.entries.map (fun p => (p.1, p.2.get_catalog_entry))).mergeSort
    (fun a b => decide (a.1 ≤ b.1))

/-- Embedding of `TileSources::get_source` (source.rs:45-51): look the
identifier up in the map, failing with `ErrorNotFound` when absent. -/
def TileSources.get_source (ts : TileSources) (id : String) :
    Except ActixError Src :=
  match ts.entries.find? (fun p => decide (p.1 = id)) with
  | some p => .ok p.2
  | none => .error (errorNotFound ("Source " ++ id ++ " does not exist"))

/-- Embedding of `TileSources::check_zoom` (source.rs:89-95): delegate to
`is_valid_zoom`; the debug log line has no observable effect here. -/
def TileSources.check_zoom (src : Src) (_id : String) (zoom : Nat) : Bool :=
  src.is_valid_zoom zoom

/-- Embedding of the message of the format-mismatch error (source.rs:69-71):
`format!("Cannot merge sources with {inf} with {src_inf}")`. -/
def mergeErrorMsg (inf src_inf : TileInfo) : String :=
  "Cannot merge sources with " ++ inf.display ++ " with " ++ src_inf.display

/-- Embedding of the conditional push at the end of the loop body of
`TileSources::get_sources` (source.rs:76-82): with a supplied zoom the
source is pushed only when `check_zoom` accepts it; with no zoom it is
always pushed. -/
def pushStep (zoom : Option Nat) (src : Src) (id : String)
    (sources : List Src) : List Src :=
  if (match zoom with
      | some z => TileSources.check_zoom src id z
      | none => true) then
    sources ++ [src]
  else sources

/-- Embedding of the loop of `TileSources::get_sources` (source.rs:61-83),
carrying the output list, the running expected format and the
dynamic-query flag through the remaining identifiers. -/
def getSourcesLoop (ts : TileSources) (zoom : Option Nat) :
    List String → List Src → Option TileInfo → Bool →
    Except ActixError (List Src × Bool × Option TileInfo)
  | [], sources, info, use_url_query => .ok (sources, use_url_query, info)
  | id :: rest, sources, info, use_url_query =>
    match ts.get_source id with
    | .error e => .error e
    | .ok src =>
      let src_inf := src.get_tile_info
      let use_url_query := use_url_query || src.support_url_query
      match info with
      | some inf =>
        if inf = src_inf then
          getSourcesLoop ts zoom rest (pushStep zoom src id sources)
            (some inf) use_url_query
        else
          .error (errorNotFound (mergeErrorMsg inf src_inf))
      | none =>
        getSourcesLoop ts zoom rest (pushStep zoom src id sources)
          (some src_inf) use_url_query

/-- Embedding of `TileSources::get_sources` (source.rs:53-87). Rust splits
`source_ids` on commas (which never produces an empty list) and finally
returns `info.unwrap()`; the embedding keeps the running `Option TileInfo`
in the result, and the invariant that it is `some` on every success is
proved separately, justifying the `unwrap`. -/
def TileSources.get_sources (ts : TileSources) (source_ids : String)
    (zoom : Option Nat) :
    Except ActixError (List Src × Bool × Option TileInfo) :=
  getSourcesLoop ts zoom (source_ids.splitOn ",") [] none false

/-- Pure lookup underlying `get_source`: the stored source for an
identifier, when present. -/
def lookupSrc (ts : TileSources) (id : String) : Option Src :=
  (ts.entries.find? (fun p => decide (p.1 = id))).map Prod.snd

/-- Resolution of a list of identifiers: `some` of the sources, in request
order, exactly when every identifier is registered. -/
def resolveIds (ts : TileSources) : List String → Option (List Src)
  | [] => some []
  | id :: rest =>
    match lookupSrc ts id, resolveIds ts rest with
    | some s, some srcs => some (s :: srcs)
    | _, _ => none

/-- The zoom admissibility test applied by the loop: with a supplied zoom,
`is_valid_zoom`; with no zoom, always true. -/
def zoomPass (zoom : Option Nat) (src : Src) : Bool :=
  match zoom with
  | some z => src.is_valid_zoom z
  | none => true

/-- The running expected format after processing a list of resolved
sources: an already fixed format stays fixed, otherwise the first source
fixes it. -/
def fixFormat (info : Option TileInfo) (srcs : List Src) : Option TileInfo :=
  match info with
  | some inf => some inf
  | none => srcs.head?.map Src.get_tile_info

/-- The first format conflict the loop's running check would report on a
list of resolved sources, as the pair of the expected format and the
offending source's format. -/
def firstMismatch : Option TileInfo → List Src → Option (TileInfo × TileInfo)
  | _, [] => none
  | some inf, s :: rest =>
    if inf = s.get_tile_info then firstMismatch (some inf) rest
    else some (inf, s.get_tile_info)
  | none, s :: rest => firstMismatch (some s.get_tile_info) rest

/-- Concrete format fixture: an uncompressed PNG format descriptor. -/
def pngInfo : TileInfo := ⟨"image/png", none⟩

/-- Concrete format fixture: a gzip-compressed vector-tile format
descriptor, distinct from `pngInfo` in both fields. -/
def mvtInfo : TileInfo := ⟨"application/x-protobuf", some "gzip"⟩

/-- Concrete source fixture: identifier `a`, zoom range 2 to 10, display
name equal to its identifier, PNG format, no query-string support. -/
def srcA : Src := ⟨"a", ⟨some 2, some 10, some "a", none, none⟩, pngInfo, false⟩

/-- Concrete source fixture: identifier `b`, unbounded zoom, display name
different from its identifier, PNG format, query-string support. -/
def srcB : Src :=
  ⟨"b", ⟨none, none, some "Bee", some "about b", some "by b"⟩, pngInfo, true⟩

/-- Concrete source fixture: identifier `c`, maximum zoom 5, vector-tile
format (conflicting with `pngInfo`). -/
def srcC : Src := ⟨"c", ⟨none, some 5, none, none, none⟩, mvtInfo, false⟩

/-- Concrete source fixture registered under the empty identifier. -/
def srcEmpty : Src := ⟨"", ⟨none, none, none, none, none⟩, pngInfo, false⟩

/-- Registry fixture holding `srcA` and `srcB` (equal formats). -/
def tsAB : TileSources := TileSources.new [[srcA, srcB]]

/-- Registry fixture holding `srcA` and `srcC` (conflicting formats). -/
def tsAC : TileSources := TileSources.new [[srcA, srcC]]

/-- Registry fixture holding a single source under the empty identifier. -/
def tsEmptyId : TileSources := TileSources.new [[srcEmpty]]

/-- Raw association-list lookup on modelled map entries. -/
def lookupL (m : List (String × Src)) (k : String) : Option Src :=
  (m.find? (fun p => decide (p.1 = k))).map Prod.snd

/-- The fold that `TileSources.new` runs over the flattened contributed
sources, made explicit for induction. -/
def buildMap (l : List Src) (m : List (String × Src)) :
    List (String × Src) :=
  l.foldl (fun m src => hmInsert m src.get_id src) m

/-- Unfolding `get_source` through the pure lookup. -/
theorem get_source_eq_lookup (ts : TileSources) (id : String) :
    ts.get_source id =
      match lookupSrc ts id with
      | some s => .ok s
      | none =>
        .error (errorNotFound ("Source " ++ id ++ " does not exist")) := by
  unfold TileSources.get_source lookupSrc
  cases ts.entries.find? (fun p => decide (p.1 = id)) <;> simp

/-- The conditional push is the `zoomPass` filter step. -/
theorem pushStep_eq (zoom : Option Nat) (src : Src) (id : String)
    (sources : List Src) :
    pushStep zoom src id sources =
      if zoomPass zoom src then sources ++ [src] else sources := by
  unfold pushStep zoomPass TileSources.check_zoom
  cases zoom <;> simp

/-- The running format over an empty suffix is unchanged. -/
theorem fixFormat_nil (info : Option TileInfo) : fixFormat info [] = info := by
  cases info <;> rfl

/-- One step of the `get_sources` loop on a registered identifier. -/
theorem loop_cons_some (ts : TileSources) (zoom : Option Nat) (id : String)
    (rest : List String) (acc : List Src) (info : Option TileInfo)
    (useq : Bool) (s : Src) (hl : lookupSrc ts id = some s) :
    getSourcesLoop ts zoom (id :: rest) acc info useq =
      match info with
      | some inf =>
        if inf = s.get_tile_info then
          getSourcesLoop ts zoom rest (pushStep zoom s id acc) (some inf)
            (useq || s.support_url_query)
        else .error (errorNotFound (mergeErrorMsg inf s.get_tile_info))
      | none =>
        getSourcesLoop ts zoom rest (pushStep zoom s id acc)
          (some s.get_tile_info) (useq || s.support_url_query) := by
  conv_lhs => unfold getSourcesLoop
  rw [get_source_eq_lookup, hl]

/-- One step of the `get_sources` loop on a missing identifier. -/
theorem loop_cons_none (ts : TileSources) (zoom : Option Nat) (id : String)
    (rest : List String) (acc : List Src) (info : Option TileInfo)
    (useq : Bool) (hl : lookupSrc ts id = none) :
    getSourcesLoop ts zoom (id :: rest) acc info useq =
      .error (errorNotFound ("Source " ++ id ++ " does not exist")) := by
  conv_lhs => unfold getSourcesLoop
  rw [get_source_eq_lookup, hl]

/-- Characterization of the `get_sources` loop when every remaining
identifier resolves: the outcome is decided by the first format mismatch,
and on success the zoom filter, the OR of the query flags and the fixed
format are as computed by `zoomPass`, `List.any` and `fixFormat`. -/
theorem loop_resolved (ts : TileSources) (zoom : Option Nat) :
    ∀ (l : List String) (srcs acc : List Src) (info : Option TileInfo)
      (useq : Bool),
      resolveIds ts l = some srcs →
      getSourcesLoop ts zoom l acc info useq =
        match firstMismatch info srcs with
        | some c => .error (errorNotFound (mergeErrorMsg c.1 c.2))
        | none =>
          .ok (acc ++ srcs.filter (zoomPass zoom),
               useq || srcs.any Src.support_url_query,
               fixFormat info srcs) := by
  intro l
  induction l with
  | nil =>
    intro srcs acc info useq hres
    unfold resolveIds at hres
    cases hres
    simp [getSourcesLoop, firstMismatch, fixFormat_nil]
  | cons id rest ih =>
    intro srcs acc info useq hres
    unfold resolveIds at hres
    cases hl : lookupSrc ts id with
    | none => rw [hl] at hres; simp at hres
    | some s =>
      rw [hl] at hres
      cases hr : resolveIds ts rest with
      | none => rw [hr] at hres; simp at hres
      | some srcs' =>
        rw [hr] at hres
        simp only [Option.some.injEq] at hres
        subst hres
        rw [loop_cons_some ts zoom id rest acc info useq s hl]
        cases info with
        | none =>
          rw [ih srcs' (pushStep zoom s id acc) (some s.get_tile_info)
            (useq || s.support_url_query) hr]
          show (match firstMismatch (some s.get_tile_info) srcs' with
            | some c => Except.error (errorNotFound (mergeErrorMsg c.1 c.2))
            | none =>
              Except.ok (pushStep zoom s id acc ++
                  srcs'.filter (zoomPass zoom),
                (useq || s.support_url_query) ||
                  srcs'.any Src.support_url_query,
                fixFormat (some s.get_tile_info) srcs')) = _
          cases hm : firstMismatch (some s.get_tile_info) srcs' with
          | some c => simp [firstMismatch, hm]
          | none =>
            simp only [firstMismatch, hm, List.filter_cons, List.any_cons,
              pushStep_eq, fixFormat, Bool.or_assoc]
            cases hz : zoomPass zoom s <;> simp
        | some inf =>
          dsimp only
          by_cases he : inf = s.get_tile_info
          · rw [if_pos he]
            rw [ih srcs' (pushStep zoom s id acc) (some inf)
              (useq || s.support_url_query) hr]
            show (match firstMismatch (some inf) srcs' with
              | some c => Except.error (errorNotFound (mergeErrorMsg c.1 c.2))
              | none =>
                Except.ok (pushStep zoom s id acc ++
                    srcs'.filter (zoomPass zoom),
                  (useq || s.support_url_query) ||
                    srcs'.any Src.support_url_query,
                  fixFormat (some inf) srcs')) = _
            have hfm : firstMismatch (some inf) (s :: srcs') =
                firstMismatch (some inf) srcs' := by
              rw [firstMismatch, if_pos he]
            rw [hfm]
            cases hm : firstMismatch (some inf) srcs' with
            | some c => simp
            | none =>
              simp only [List.filter_cons, List.any_cons, pushStep_eq,
                fixFormat, Bool.or_assoc]
              cases hz : zoomPass zoom s <;> simp
          · rw [if_neg he]
            have hfm : firstMismatch (some inf) (s :: srcs') =
                some (inf, s.get_tile_info) := by
              rw [firstMismatch, if_neg he]
            rw [hfm]

/-- The `get_sources` loop fails with the not-found error of the first
unregistered identifier, provided every identifier before it resolves and
the resolved prefix passes the running format check. -/
theorem loop_notFound (ts : TileSources) (zoom : Option Nat) :
    ∀ (l1 : List String) (id : String) (l2 : List String)
      (srcs1 acc : List Src) (info : Option TileInfo) (useq : Bool),
      resolveIds ts l1 = some srcs1 →
      firstMismatch info srcs1 = none →
      lookupSrc ts id = none →
      getSourcesLoop ts zoom (l1 ++ id :: l2) acc info useq =
        .error (errorNotFound ("Source " ++ id ++ " does not exist")) := by
  intro l1
  induction l1 with
  | nil =>
    intro id l2 srcs1 acc info useq hres hfmt hid
    rw [List.nil_append]
    exact loop_cons_none ts zoom id l2 acc info useq hid
  | cons a l1' ih =>
    intro id l2 srcs1 acc info useq hres hfmt hid
    unfold resolveIds at hres
    cases hl : lookupSrc ts a with
    | none => rw [hl] at hres; simp at hres
    | some s =>
      rw [hl] at hres
      cases hr : resolveIds ts l1' with
      | none => rw [hr] at hres; simp at hres
      | some srcs1' =>
        rw [hr] at hres
        simp only [Option.some.injEq] at hres
        subst hres
        rw [List.cons_append]
        rw [loop_cons_some ts zoom a (l1' ++ id :: l2) acc info useq s hl]
        cases info with
        | none =>
          exact ih id l2 srcs1' (pushStep zoom s a acc) (some s.get_tile_info)
            (useq || s.support_url_query) hr hfmt hid
        | some inf =>
          dsimp only
          by_cases he : inf = s.get_tile_info
          · rw [if_pos he]
            rw [firstMismatch, if_pos he] at hfmt
            exact ih id l2 srcs1' (pushStep zoom s a acc) (some inf)
              (useq || s.support_url_query) hr hfmt hid
          · exfalso
            rw [firstMismatch, if_neg he] at hfmt
            simp at hfmt

/-- A successful run of the `get_sources` loop resolves every identifier. -/
theorem loop_ok_resolves (ts : TileSources) (zoom : Option Nat) :
    ∀ (l : List String) (acc : List Src) (info : Option TileInfo)
      (useq : Bool) (r : List Src × Bool × Option TileInfo),
      getSourcesLoop ts zoom l acc info useq = .ok r →
      ∃ srcs, resolveIds ts l = some srcs := by
  intro l
  induction l with
  | nil => intro acc info useq r _; exact ⟨[], rfl⟩
  | cons id rest ih =>
    intro acc info useq r h
    cases hl : lookupSrc ts id with
    | none =>
      rw [loop_cons_none ts zoom id rest acc info useq hl] at h
      exact absurd h (by simp)
    | some s =>
      rw [loop_cons_some ts zoom id rest acc info useq s hl] at h
      cases info with
      | none =>
        obtain ⟨srcs, hsrcs⟩ := ih _ _ _ _ h
        exact ⟨s :: srcs, by unfold resolveIds; rw [hl, hsrcs]⟩
      | some inf =>
        dsimp only at h
        by_cases he : inf = s.get_tile_info
        · rw [if_pos he] at h
          obtain ⟨srcs, hsrcs⟩ := ih _ _ _ _ h
          exact ⟨s :: srcs, by unfold resolveIds; rw [hl, hsrcs]⟩
        · rw [if_neg he] at h
          exact absurd h (by simp)

/-- A reported format conflict is a genuine inequality of descriptors. -/
theorem firstMismatch_ne :
    ∀ (srcs : List Src) (info : Option TileInfo) (c : TileInfo × TileInfo),
      firstMismatch info srcs = some c → c.1 ≠ c.2 := by
  intro srcs
  induction srcs with
  | nil => intro info c h; cases info <;> simp [firstMismatch] at h
  | cons s rest ih =>
    intro info c h
    cases info with
    | none => exact ih (some s.get_tile_info) c h
    | some inf =>
      by_cases he : inf = s.get_tile_info
      · rw [firstMismatch, if_pos he] at h
        exact ih (some inf) c h
      · rw [firstMismatch, if_neg he] at h
        injection h with h2
        subst h2
        exact he

/-- The expected side of a reported conflict is the running fixed format. -/
theorem firstMismatch_fst (inf : TileInfo) :
    ∀ (srcs : List Src) (c : TileInfo × TileInfo),
      firstMismatch (some inf) srcs = some c → c.1 = inf := by
  intro srcs
  induction srcs with
  | nil => intro c h; simp [firstMismatch] at h
  | cons s rest ih =>
    intro c h
    by_cases he : inf = s.get_tile_info
    · rw [firstMismatch, if_pos he] at h
      exact ih c h
    · rw [firstMismatch, if_neg he] at h
      injection h with h2
      subst h2
      rfl

/-- With no previously fixed format, the expected side of a reported
conflict is the format of the first source in request order. -/
theorem firstMismatch_head :
    ∀ (srcs : List Src) (c : TileInfo × TileInfo),
      firstMismatch none srcs = some c →
      srcs.head?.map Src.get_tile_info = some c.1 := by
  intro srcs c h
  cases srcs with
  | nil => simp [firstMismatch] at h
  | cons s rest =>
    have h1 : c.1 = s.get_tile_info := firstMismatch_fst s.get_tile_info rest c h
    simp [h1]

/-- Only the empty request resolves to the empty source list. -/
theorem resolveIds_nil (ts : TileSources) :
    ∀ (l : List String), resolveIds ts l = some [] → l = [] := by
  intro l h
  cases l with
  | nil => rfl
  | cons id rest =>
    unfold resolveIds at h
    cases hl : lookupSrc ts id <;> rw [hl] at h
    · simp at h
    · cases hr : resolveIds ts rest <;> rw [hr] at h <;> simp at h

/-- The splitting helper of `String.splitOn` never returns the empty
list. -/
theorem splitOnAux_ne_nil (s sep : String) (b i j : String.Pos)
    (r : List String) : String.splitOnAux s sep b i j r ≠ [] := by
  induction b, i, j, r using String.splitOnAux.induct s sep
  all_goals rw [String.splitOnAux]
  all_goals simp_all

/-- Splitting a string never yields the empty list (Rust `str::split`
behaves the same way), so `get_sources` always examines at least one
identifier. -/
theorem splitOn_ne_nil (s sep : String) : s.splitOn sep ≠ [] := by
  unfold String.splitOn
  split
  · simp
  · exact splitOnAux_ne_nil s sep 0 0 0 []

/-- Association-list lookup on a cons cell. -/
theorem lookupL_cons (q : String × Src) (m : List (String × Src))
    (k' : String) :
    lookupL (q :: m) k' = if q.1 = k' then some q.2 else lookupL m k' := by
  unfold lookupL
  rw [List.find?_cons]
  by_cases h : q.1 = k' <;> simp [h]

/-- Lookup after replacing every entry stored under a key. -/
theorem lookupL_replace (m : List (String × Src)) (k : String) (v : Src)
    (k' : String) :
    lookupL (m.map (fun p => if p.1 = k then (k, v) else p)) k' =
      if k' = k then (lookupL m k).map (fun _ => v) else lookupL m k' := by
  induction m with
  | nil => simp [lookupL]
  | cons p m ih =>
    simp only [List.map_cons]
    by_cases hk' : k' = k
    · subst hk'
      simp only [if_pos rfl] at ih ⊢
      by_cases hpk : p.1 = k'
      · rw [if_pos hpk, lookupL_cons, lookupL_cons, if_pos rfl, if_pos hpk]
        simp
      · rw [if_neg hpk, lookupL_cons, lookupL_cons, if_neg hpk, if_neg hpk]
        exact ih
    · rw [if_neg hk']
      simp only [if_neg hk'] at ih
      by_cases hpk : p.1 = k
      · rw [if_pos hpk, lookupL_cons, lookupL_cons]
        have h1 : ¬((k, v).1 = k') := fun h => hk' h.symm
        rw [if_neg h1]
        have h2 : ¬(p.1 = k') := by rw [hpk]; exact fun h => hk' h.symm
        rw [if_neg h2]
        exact ih
      · rw [if_neg hpk, lookupL_cons, lookupL_cons]
        by_cases hp' : p.1 = k'
        · rw [if_pos hp', if_pos hp']
        · rw [if_neg hp', if_neg hp']
          exact ih

/-- Lookup after a modelled `HashMap` insertion: the inserted key now maps
to the new value and every other key is untouched (last write wins). -/
theorem lookupL_hmInsert (m : List (String × Src)) (k : String) (v : Src)
    (k' : String) :
    lookupL (hmInsert m k v) k' =
      if k' = k then some v else lookupL m k' := by
  unfold hmInsert
  split
  · rename_i hany
    rw [lookupL_replace]
    by_cases hk' : k' = k
    · rw [if_pos hk', if_pos hk']
      obtain ⟨p, hp, hpk⟩ := List.any_eq_true.mp hany
      have hsome : (lookupL m k).isSome := by
        unfold lookupL
        have hfs : (List.find? (fun p => decide (p.1 = k)) m).isSome :=
          List.find?_isSome.mpr ⟨p, hp, hpk⟩
        cases hq : List.find? (fun p => decide (p.1 = k)) m with
        | none => rw [hq] at hfs; simp at hfs
        | some q => rfl
      obtain ⟨q, hq⟩ := Option.isSome_iff_exists.mp hsome
      rw [hq]
      rfl
    · rw [if_neg hk', if_neg hk']
  · rename_i hany
    unfold lookupL
    rw [List.find?_append]
    by_cases hk' : k' = k
    · subst hk'
      have hf : m.find? (fun p => decide (p.1 = k')) = none := by
        rw [List.find?_eq_none]
        intro p hp hdec
        exact hany (List.any_eq_true.mpr ⟨p, hp, hdec⟩)
      rw [hf, if_pos rfl]
      simp [List.find?_cons]
    · rw [if_neg hk']
      have hf1 : List.find? (fun p => decide (p.1 = k')) [(k, v)] = none := by
        simp only [List.find?_cons]
        have : ¬((k, v).1 = k') := fun h => hk' h.symm
        simp [this]
      rw [hf1]
      simp

/-- The keys of the modelled map after an insertion: unchanged when the
key was present, extended by the key otherwise. -/
theorem keys_hmInsert (m : List (String × Src)) (k : String) (v : Src) :
    (hmInsert m k v).map Prod.fst =
      if m.any (fun p => decide (p.1 = k)) then m.map Prod.fst
      else m.map Prod.fst ++ [k] := by
  unfold hmInsert
  split
  · rw [List.map_map]
    apply List.map_congr_left
    intro p _
    by_cases hpk : p.1 = k <;> simp [hpk]
  · simp

/-- A modelled insertion whose value carries its key preserves the
key-invariant and the distinctness of keys. -/
theorem hmInsert_inv (m : List (String × Src)) (k : String) (v : Src)
    (hv : v.get_id = k) (hkeys : ∀ p ∈ m, p.2.get_id = p.1)
    (hnd : (m.map Prod.fst).Nodup) :
    (∀ p ∈ hmInsert m k v, p.2.get_id = p.1) ∧
      ((hmInsert m k v).map Prod.fst).Nodup := by
  constructor
  · intro p hp
    unfold hmInsert at hp
    split at hp
    · obtain ⟨q, hq, hqe⟩ := List.mem_map.mp hp
      by_cases hqk : q.1 = k
      · rw [if_pos hqk] at hqe
        rw [← hqe]
        exact hv
      · rw [if_neg hqk] at hqe
        rw [← hqe]
        exact hkeys q hq
    · rcases List.mem_append.mp hp with hq | hq
      · exact hkeys p hq
      · rw [List.mem_singleton.mp hq]
        exact hv
  · rw [keys_hmInsert]
    split
    · exact hnd
    · rename_i hany
      have hk : k ∉ m.map Prod.fst := by
        intro hmem
        obtain ⟨p, hp, hpe⟩ := List.mem_map.mp hmem
        exact hany (List.any_eq_true.mpr ⟨p, hp, by simpa using hpe⟩)
      simp [List.nodup_append, hnd, hk]

/-- The entries built by `TileSources.new` are the insertion fold from the
empty map. -/
theorem new_entries (ls : List (List Src)) :
    (TileSources.new ls).entries = buildMap ls.flatten [] := rfl

/-- Lookup over the registry-building fold: the last contributed source
with the looked-up identifier wins, and otherwise the starting map
decides. -/
theorem buildMap_lookup (l : List Src) :
    ∀ (m : List (String × Src)) (k : String),
      lookupL (buildMap l m) k =
        (l.reverse.find? (fun s => decide (s.get_id = k))).or
          (lookupL m k) := by
  induction l with
  | nil => intro m k; simp [buildMap]
  | cons a l ih =>
    intro m k
    have hstep : buildMap (a :: l) m = buildMap l (hmInsert m a.get_id a) :=
      rfl
    rw [hstep, ih, lookupL_hmInsert]
    rw [List.reverse_cons, List.find?_append, Option.or_assoc]
    congr 1
    by_cases hk : a.get_id = k
    · have : List.find? (fun s => decide (s.get_id = k)) [a] = some a := by
        simp [List.find?_cons, hk]
      rw [this, if_pos hk.symm]
      rfl
    · have : List.find? (fun s => decide (s.get_id = k)) [a] = none := by
        simp [List.find?_cons, hk]
      rw [this, if_neg (fun h => hk h.symm)]
      rfl

/-- The registry-building fold preserves the key-invariant and key
distinctness. -/
theorem buildMap_inv (l : List Src) :
    ∀ (m : List (String × Src)),
      (∀ p ∈ m, p.2.get_id = p.1) → ((m.map Prod.fst).Nodup) →
      (∀ p ∈ buildMap l m, p.2.get_id = p.1) ∧
        ((buildMap l m).map Prod.fst).Nodup := by
  induction l with
  | nil => intro m h1 h2; exact ⟨h1, h2⟩
  | cons a l ih =>
    intro m h1 h2
    have h := hmInsert_inv m a.get_id a rfl h1 h2
    exact ih (hmInsert m a.get_id a) h.1 h.2

/-- The registry built by `TileSources.new` satisfies the key-invariant
and has distinct keys. -/
theorem new_entries_inv (ls : List (List Src)) :
    (∀ p ∈ (TileSources.new ls).entries, p.2.get_id = p.1) ∧
      (((TileSources.new ls).entries.map Prod.fst).Nodup) := by
  rw [new_entries]
  exact buildMap_inv ls.flatten [] (by simp) (by simp)

/-- Lookup in the built registry returns the last contributed source with
the looked-up identifier. -/
theorem new_lookup (ls : List (List Src)) (k : String) :
    lookupSrc (TileSources.new ls) k =
      ls.flatten.reverse.find? (fun s => decide (s.get_id = k)) := by
  have h : lookupSrc (TileSources.new ls) k =
      lookupL (buildMap ls.flatten []) k := rfl
  rw [h, buildMap_lookup]
  have h2 : lookupL [] k = none := rfl
  rw [h2]
  simp

/-- C2: for every Source `S` and zoom `z`, `S.is_valid_zoom(z)` is true iff
(minzoom is absent or `z >= minzoom`) and (maxzoom is absent or
`z <= maxzoom`); in particular `z` equal to minzoom or to maxzoom is valid,
both bounds being inclusive. -/
theorem is_valid_zoom_spec (s : Src) (z : Nat) :
    (s.is_valid_zoom z = true ↔
      ((s.get_tilejson.minzoom = none ∨
          ∃ m, s.get_tilejson.minzoom = some m ∧ m ≤ z) ∧
       (s.get_tilejson.maxzoom = none ∨
          ∃ M, s.get_tilejson.maxzoom = some M ∧ z ≤ M))) ∧
    (∀ m, s.get_tilejson.minzoom = some m →
      (s.get_tilejson.maxzoom = none ∨
         ∃ M, s.get_tilejson.maxzoom = some M ∧ m ≤ M) →
      s.is_valid_zoom m = true) ∧
    (∀ M, s.get_tilejson.maxzoom = some M →
      (s.get_tilejson.minzoom = none ∨
         ∃ m, s.get_tilejson.minzoom = some m ∧ m ≤ M) →
      s.is_valid_zoom M = true) := by
  unfold Src.is_valid_zoom
  refine ⟨?_, ?_, ?_⟩
  · cases hmin : s.get_tilejson.minzoom <;>
      cases hmax : s.get_tilejson.maxzoom <;> simp
  · intro m hm hM
    rw [hm]
    cases hmax : s.get_tilejson.maxzoom with
    | none => simp
    | some M =>
      rcases hM with h | ⟨M2, hM2, hle⟩
      · rw [hmax] at h; cases h
      · rw [hmax] at hM2
        injection hM2 with hM2
        subst hM2
        simp [hle]
  · intro M hM hm
    rw [hM]
    cases hmin : s.get_tilejson.minzoom with
    | none => simp
    | some m =>
      rcases hm with h | ⟨m2, hm2, hle⟩
      · rw [hmin] at h; cases h
      · rw [hmin] at hm2
        injection hm2 with hm2
        subst hm2
        simp [hle]

/-- C6: the Catalog Entry built by `get_catalog_entry` always carries the
format's content-type; its name is present exactly when the source's
display name exists and differs from the identifier; its content-encoding
is absent exactly when the format declares none; and absent description or
attribution propagate as absence, never as empty-string defaults. -/
theorem get_catalog_entry_spec (s : Src) :
    s.get_catalog_entry.content_type = s.get_tile_info.contentType ∧
    (∀ n, s.get_catalog_entry.name = some n ↔
       (s.get_tilejson.name = some n ∧ n ≠ s.get_id)) ∧
    (s.get_catalog_entry.content_encoding = none ↔
       s.get_tile_info.contentEncoding = none) ∧
    s.get_catalog_entry.description = s.get_tilejson.description ∧
    s.get_catalog_entry.attribution = s.get_tilejson.attribution := by
  unfold Src.get_catalog_entry
  refine ⟨rfl, ?_, Iff.rfl, rfl, rfl⟩
  intro n
  cases hn : s.get_tilejson.name with
  | none => simp [Option.filter]
  | some v =>
    by_cases hv : v = s.get_id
    · have hf : (some v).filter (fun v => decide (v ≠ s.get_id)) = none := by
        simp [Option.filter, hv]
      rw [hf]
      constructor
      · intro h; cases h
      · rintro ⟨h1, h2⟩
        injection h1 with h1
        subst h1
        exact absurd hv h2
    · have hf : (some v).filter (fun v => decide (v ≠ s.get_id)) = some v := by
        simp [Option.filter, hv]
      rw [hf]
      constructor
      · intro h
        injection h with h
        subst h
        exact ⟨rfl, hv⟩
      · rintro ⟨h1, _⟩
        exact h1

/-- C5: for every registry built by `TileSources::new` from any number of
contributed source lists in any order, `get_catalog` returns one entry per
registered source (a permutation of the entries mapped to their catalog
entries, whose keys are distinct), sorted ascending by identifier; being a
pure function of the registry it has no side effects on it. -/
theorem get_catalog_spec (ls : List (List Src)) :
    (((TileSources.new ls).get_catalog.map Prod.fst).Sorted (· ≤ ·)) ∧
    (((TileSources.new ls).get_catalog.map Prod.fst).Nodup) ∧
    ((TileSources.new ls).get_catalog.Perm
      ((TileSources.new ls).entries.map
        (fun p => (p.1, p.2.get_catalog_entry)))) := by
  have hperm : (TileSources.new ls).get_catalog.Perm
      ((TileSources.new ls).entries.map
        (fun p => (p.1, p.2.get_catalog_entry))) := by
    unfold TileSources.get_catalog
    exact List.mergeSort_perm _ _
  refine ⟨?_, ?_, hperm⟩
  · have hs : ((TileSources.new ls).get_catalog).Pairwise
        (fun a b => decide (a.1 ≤ b.1) = true) := by
      unfold TileSources.get_catalog
      apply List.sorted_mergeSort
      · intro a b c hab hbc
        simp only [decide_eq_true_eq] at hab hbc ⊢
        exact le_trans hab hbc
      · intro a b
        simp only [Bool.or_eq_true, decide_eq_true_eq]
        exact le_total a.1 b.1
    rw [List.Sorted, List.pairwise_map]
    exact hs.imp (fun h => by simpa using h)
  · have hkeys : ((TileSources.new ls).get_catalog.map Prod.fst).Perm
        ((TileSources.new ls).entries.map Prod.fst) := by
      have h2 := hperm.map Prod.fst
      rw [List.map_map] at h2
      exact h2
    exact (hkeys.nodup_iff).mpr (new_entries_inv ls).2

/-- C9: every key of the registry built by `TileSources::new` equals
`get_id()` of the source stored under it, keys are distinct (each
identifier maps to exactly one source), and a duplicated identifier is
resolved by silent overwrite: lookup returns the last contributed source
with that identifier. -/
theorem new_registry_spec (ls : List (List Src)) :
    (∀ p ∈ (TileSources.new ls).entries, p.2.get_id = p.1) ∧
    (((TileSources.new ls).entries.map Prod.fst).Nodup) ∧
    (∀ k, lookupSrc (TileSources.new ls) k =
      ls.flatten.reverse.find? (fun s => decide (s.get_id = k))) :=
  ⟨(new_entries_inv ls).1, (new_entries_inv ls).2, fun k => new_lookup ls k⟩

/-- The zoom test with a supplied zoom is `is_valid_zoom`. -/
theorem zoomPass_some (z : Nat) :
    zoomPass (some z) = fun s => s.is_valid_zoom z := rfl

/-- The zoom test with no supplied zoom accepts everything. -/
theorem zoomPass_none : zoomPass none = fun _ => true := rfl

/-- C3: when every identifier resolves and all formats agree, `get_sources`
with a supplied zoom succeeds and returns exactly the resolved sources that
pass `is_valid_zoom`, in request order, with the common format taken from
the first resolved source even if the zoom filter dropped it; with no zoom
supplied every resolved source is returned. -/
theorem get_sources_zoom_filter_spec (ts : TileSources) (ids : String)
    (z : Nat) (srcs : List Src)
    (hres : resolveIds ts (ids.splitOn ",") = some srcs)
    (hfmt : firstMismatch none srcs = none) :
    ts.get_sources ids (some z) =
      .ok (srcs.filter (fun s => s.is_valid_zoom z),
           srcs.any Src.support_url_query,
           srcs.head?.map Src.get_tile_info) ∧
    ts.get_sources ids none =
      .ok (srcs, srcs.any Src.support_url_query,
           srcs.head?.map Src.get_tile_info) := by
  have hfix : fixFormat none srcs = srcs.head?.map Src.get_tile_info := by
    cases srcs <;> rfl
  constructor
  · unfold TileSources.get_sources
    rw [loop_resolved ts (some z) (ids.splitOn ",") srcs [] none false hres,
      hfmt]
    rw [zoomPass_some, hfix]
    simp
  · unfold TileSources.get_sources
    rw [loop_resolved ts none (ids.splitOn ",") srcs [] none false hres,
      hfmt]
    rw [zoomPass_none, hfix]
    simp

/-- C4: every successful `get_sources` call returns a dynamic-query flag
equal to the OR of `support_url_query` over all resolved sources, and with
no supplied zoom the returned list is exactly the resolved sources in
request order. -/
theorem get_sources_success_spec (ts : TileSources) (ids : String)
    (zoom : Option Nat) (out : List Src) (flag : Bool) (i : Option TileInfo)
    (h : ts.get_sources ids zoom = .ok (out, flag, i)) :
    ∃ srcs, resolveIds ts (ids.splitOn ",") = some srcs ∧
      flag = srcs.any Src.support_url_query ∧
      (zoom = none → out = srcs) := by
  obtain ⟨srcs, hres⟩ :=
    loop_ok_resolves ts zoom (ids.splitOn ",") [] none false (out, flag, i) h
  unfold TileSources.get_sources at h
  rw [loop_resolved ts zoom (ids.splitOn ",") srcs [] none false hres] at h
  cases hm : firstMismatch none srcs with
  | some c => rw [hm] at h; cases h
  | none =>
    rw [hm] at h
    injection h with h
    rw [Prod.mk.injEq, Prod.mk.injEq] at h
    refine ⟨srcs, hres, ?_, ?_⟩
    · rw [← h.2.1]
      simp
    · intro hz
      subst hz
      rw [← h.1, zoomPass_none]
      simp

/-- C10: with all identifiers resolved, the zoom filter only affects the
returned source list: on success the dynamic-query flag is the OR over all
resolved sources (zoom-dropped ones included) and the common format is the
first resolved source's format; and any format mismatch among the resolved
sources (in particular on a zoom-invalid one) fails the whole resolution
with the merge error. -/
theorem get_sources_zoom_independent_checks (ts : TileSources)
    (ids : String) (z : Nat) (srcs : List Src)
    (hres : resolveIds ts (ids.splitOn ",") = some srcs) :
    (∀ out flag i, ts.get_sources ids (some z) = .ok (out, flag, i) →
      flag = srcs.any Src.support_url_query ∧
      i = srcs.head?.map Src.get_tile_info ∧
      out = srcs.filter (fun s => s.is_valid_zoom z)) ∧
    (∀ c, firstMismatch none srcs = some c →
      ts.get_sources ids (some z) =
        .error (errorNotFound (mergeErrorMsg c.1 c.2))) := by
  have hfix : fixFormat none srcs = srcs.head?.map Src.get_tile_info := by
    cases srcs <;> rfl
  constructor
  · intro out flag i h
    unfold TileSources.get_sources at h
    rw [loop_resolved ts (some z) (ids.splitOn ",") srcs [] none false
      hres] at h
    cases hm : firstMismatch none srcs with
    | some c => rw [hm] at h; cases h
    | none =>
      rw [hm] at h
      injection h with h
      rw [Prod.mk.injEq, Prod.mk.injEq] at h
      refine ⟨?_, ?_, ?_⟩
      · rw [← h.2.1]; simp
      · rw [← h.2.2, hfix]
      · rw [← h.1, zoomPass_some]; simp
  · intro c hm
    unfold TileSources.get_sources
    rw [loop_resolved ts (some z) (ids.splitOn ",") srcs [] none false hres,
      hm]

/-- C1 (amended): when every identifier resolves but some source's format
differs from the format fixed by the first source, `get_sources` fails
with an error whose message names both conflicting format descriptors; the
error is, however, built with the same `ErrorNotFound` (HTTP 404)
constructor as the not-found case, so it is distinguished from NotFound
only by its message, not by its kind. -/
theorem get_sources_format_conflict_spec (ts : TileSources) (ids : String)
    (zoom : Option Nat) (srcs : List Src) (c : TileInfo × TileInfo)
    (hres : resolveIds ts (ids.splitOn ",") = some srcs)
    (hmis : firstMismatch none srcs = some c) :
    ts.get_sources ids zoom =
      .error (errorNotFound (mergeErrorMsg c.1 c.2)) ∧
    c.1 ≠ c.2 ∧
    srcs.head?.map Src.get_tile_info = some c.1 ∧
    (errorNotFound (mergeErrorMsg c.1 c.2)).status = 404 := by
  refine ⟨?_, firstMismatch_ne srcs none c hmis,
    firstMismatch_head srcs c hmis, rfl⟩
  unfold TileSources.get_sources
  rw [loop_resolved ts zoom (ids.splitOn ",") srcs [] none false hres, hmis]

unseal String.splitOnAux in
/-- C1 counterexample: at a concrete registry whose two sources have
conflicting formats, the format-mismatch failure of `get_sources` is an
error built by the very `errorNotFound` constructor (status 404), i.e. it
is not a condition distinct in kind from NotFound. -/
theorem format_conflict_same_kind_counterexample :
    TileSources.get_sources tsAC "a,c" none =
      .error (errorNotFound (mergeErrorMsg pngInfo mvtInfo)) ∧
    (errorNotFound (mergeErrorMsg pngInfo mvtInfo)).status =
      (errorNotFound ("Source m does not exist")).status :=
  ⟨rfl, rfl⟩

unseal String.splitOnAux in
/-- Splitting the empty identifier string yields one empty identifier,
exactly as Rust's `"".split(',')` does. -/
theorem string_split_empty : "".splitOn "," = [""] := rfl

/-- C7 (amended): `get_source` fails with NotFound exactly on unregistered
identifiers and returns the stored source otherwise (it never mutates the
registry, all operations being pure); and `get_sources` fails with the
NotFound error of the first unregistered identifier in request order,
provided the identifiers before it resolve with agreeing formats (an
earlier format conflict fails first instead). -/
theorem get_source_notFound_spec (ts : TileSources) (ids : String)
    (l1 : List String) (id : String) (l2 : List String) (srcs1 : List Src)
    (zoom : Option Nat)
    (hsplit : ids.splitOn "," = l1 ++ id :: l2)
    (hres : resolveIds ts l1 = some srcs1)
    (hfmt : firstMismatch none srcs1 = none)
    (hid : lookupSrc ts id = none) :
    (∀ i : String,
      (lookupSrc ts i = none →
        ts.get_source i =
          .error (errorNotFound ("Source " ++ i ++ " does not exist"))) ∧
      (∀ s, lookupSrc ts i = some s → ts.get_source i = .ok s)) ∧
    ts.get_sources ids zoom =
      .error (errorNotFound ("Source " ++ id ++ " does not exist")) := by
  constructor
  · intro i
    constructor
    · intro hnone
      rw [get_source_eq_lookup, hnone]
    · intro s hs
      rw [get_source_eq_lookup, hs]
  · unfold TileSources.get_sources
    rw [hsplit]
    exact loop_notFound ts zoom l1 id l2 srcs1 [] none false hres hfmt hid

unseal String.splitOnAux in
/-- C7 counterexample: a resolution request containing an unregistered
identifier does not always fail with NotFound for that identifier: an
earlier format conflict between registered sources fails first, with an
error whose message does not mention the unregistered identifier. -/
theorem notFound_preempted_counterexample :
    lookupSrc tsAC "zzz" = none ∧
    TileSources.get_sources tsAC "a,c,zzz" none =
      .error (errorNotFound (mergeErrorMsg pngInfo mvtInfo)) ∧
    mergeErrorMsg pngInfo mvtInfo ≠ "Source zzz does not exist" :=
  ⟨rfl, rfl, by decide⟩

/-- C8 (amended): an empty identifier-list input is handled as one empty
identifier, so `get_sources ""` fails with NotFound for the empty
identifier whenever no source is registered under the empty string; and
every successful call returns a common format equal to the format of the
first actually resolved source, never a placeholder. -/
theorem get_sources_empty_input_spec (ts : TileSources) (zoom : Option Nat)
    (h : lookupSrc ts "" = none) :
    ts.get_sources "" zoom =
      .error (errorNotFound ("Source " ++ "" ++ " does not exist")) ∧
    (∀ (ids : String) (out : List Src) (flag : Bool) (i : Option TileInfo),
      ts.get_sources ids zoom = .ok (out, flag, i) →
      ∃ s0 srcs, resolveIds ts (ids.splitOn ",") = some (s0 :: srcs) ∧
        i = some s0.get_tile_info) := by
  constructor
  · unfold TileSources.get_sources
    rw [string_split_empty]
    exact loop_cons_none ts zoom "" [] [] none false h
  · intro ids out flag i hok
    obtain ⟨srcs, hres⟩ :=
      loop_ok_resolves ts zoom (ids.splitOn ",") [] none false
        (out, flag, i) hok
    cases srcs with
    | nil =>
      exact absurd (resolveIds_nil ts _ hres) (splitOn_ne_nil ids ",")
    | cons s0 rest =>
      refine ⟨s0, rest, hres, ?_⟩
      unfold TileSources.get_sources at hok
      rw [loop_resolved ts zoom (ids.splitOn ",") (s0 :: rest) [] none false
        hres] at hok
      cases hm : firstMismatch none (s0 :: rest) with
      | some c => rw [hm] at hok; cases hok
      | none =>
        rw [hm] at hok
        injection hok with hok
        rw [Prod.mk.injEq, Prod.mk.injEq] at hok
        have hf : fixFormat none (s0 :: rest) = some s0.get_tile_info := rfl
        rw [hf] at hok
        exact hok.2.2.symm

unseal String.splitOnAux in
/-- C8 counterexample: with a source registered under the empty identifier,
the empty identifier-list input does not fail: it resolves that source and
succeeds. -/
theorem empty_input_success_counterexample :
    TileSources.get_sources tsEmptyId "" none =
      .ok ([srcEmpty], false, some pngInfo) := rfl

unseal String.splitOnAux in
/-- Witness for C1's theorem: concrete conflicting registry and request,
with the hypotheses discharged by evaluation. -/
theorem get_sources_format_conflict_spec_witness :
    (resolveIds tsAC ("a,c".splitOn ",") = some [srcA, srcC] ∧
     firstMismatch none [srcA, srcC] = some (pngInfo, mvtInfo)) ∧
    (TileSources.get_sources tsAC "a,c" none =
        .error (errorNotFound (mergeErrorMsg pngInfo mvtInfo)) ∧
     pngInfo ≠ mvtInfo ∧
     [srcA, srcC].head?.map Src.get_tile_info = some pngInfo ∧
     (errorNotFound (mergeErrorMsg pngInfo mvtInfo)).status = 404) :=
  ⟨⟨rfl, rfl⟩,
    get_sources_format_conflict_spec tsAC "a,c" none [srcA, srcC]
      (pngInfo, mvtInfo) rfl rfl⟩

unseal String.splitOnAux in
/-- Witness for C3's theorem: a concrete two-source registry where zoom 1
is valid for one source only; the hypotheses are discharged by
evaluation. -/
theorem get_sources_zoom_filter_spec_witness :
    (resolveIds tsAB ("a,b".splitOn ",") = some [srcA, srcB] ∧
     firstMismatch none [srcA, srcB] = none) ∧
    (TileSources.get_sources tsAB "a,b" (some 1) =
        .ok ([srcA, srcB].filter (fun s => s.is_valid_zoom 1),
          [srcA, srcB].any Src.support_url_query,
          [srcA, srcB].head?.map Src.get_tile_info) ∧
     TileSources.get_sources tsAB "a,b" none =
        .ok ([srcA, srcB], [srcA, srcB].any Src.support_url_query,
          [srcA, srcB].head?.map Src.get_tile_info)) :=
  ⟨⟨rfl, rfl⟩,
    get_sources_zoom_filter_spec tsAB "a,b" 1 [srcA, srcB] rfl rfl⟩

unseal String.splitOnAux in
/-- Witness for C4's theorem: a concrete successful no-zoom resolution,
with the success hypothesis discharged by evaluation. -/
theorem get_sources_success_spec_witness :
    TileSources.get_sources tsAB "a,b" none =
      .ok ([srcA, srcB], true, some pngInfo) ∧
    (∃ srcs, resolveIds tsAB ("a,b".splitOn ",") = some srcs ∧
      true = srcs.any Src.support_url_query ∧
      ((none : Option Nat) = none → [srcA, srcB] = srcs)) :=
  ⟨rfl,
    get_sources_success_spec tsAB "a,b" none [srcA, srcB] true
      (some pngInfo) rfl⟩

unseal String.splitOnAux in
/-- Witness for C7's theorem: the request `a,zzz` on a registry holding
only `a` and `b`; the hypotheses are discharged by evaluation. -/
theorem get_source_notFound_spec_witness :
    ("a,zzz".splitOn "," = ["a"] ++ "zzz" :: [] ∧
     resolveIds tsAB ["a"] = some [srcA] ∧
     firstMismatch none [srcA] = none ∧
     lookupSrc tsAB "zzz" = none) ∧
    ((∀ i : String,
       (lookupSrc tsAB i = none →
         TileSources.get_source tsAB i =
           .error (errorNotFound ("Source " ++ i ++ " does not exist"))) ∧
       (∀ s, lookupSrc tsAB i = some s →
         TileSources.get_source tsAB i = .ok s)) ∧
     TileSources.get_sources tsAB "a,zzz" none =
       .error (errorNotFound ("Source " ++ "zzz" ++ " does not exist"))) :=
  ⟨⟨rfl, rfl, rfl, rfl⟩,
    get_source_notFound_spec tsAB "a,zzz" ["a"] "zzz" [] [srcA] none
      rfl rfl rfl rfl⟩

/-- Witness for C8's theorem: a registry with no source under the empty
identifier; the hypothesis is discharged by evaluation. -/
theorem get_sources_empty_input_spec_witness :
    lookupSrc tsAB "" = none ∧
    (TileSources.get_sources tsAB "" none =
        .error (errorNotFound ("Source " ++ "" ++ " does not exist")) ∧
     (∀ (ids : String) (out : List Src) (flag : Bool) (i : Option TileInfo),
       TileSources.get_sources tsAB ids none = .ok (out, flag, i) →
       ∃ s0 srcs, resolveIds tsAB (ids.splitOn ",") = some (s0 :: srcs) ∧
         i = some s0.get_tile_info)) :=
  ⟨rfl, get_sources_empty_input_spec tsAB none rfl⟩

unseal String.splitOnAux in
/-- Witness for C10's theorem: the conflicting registry at zoom 6, where
the conflicting source `c` is itself zoom-invalid (its maxzoom is 5) and
the resolution still fails with the merge error; the hypothesis is
discharged by evaluation. -/
theorem get_sources_zoom_independent_checks_witness :
    resolveIds tsAC ("a,c".splitOn ",") = some [srcA, srcC] ∧
    ((∀ out flag i,
       TileSources.get_sources tsAC "a,c" (some 6) = .ok (out, flag, i) →
       flag = [srcA, srcC].any Src.support_url_query ∧
       i = [srcA, srcC].head?.map Src.get_tile_info ∧
       out = [srcA, srcC].filter (fun s => s.is_valid_zoom 6)) ∧
     (∀ c, firstMismatch none [srcA, srcC] = some c →
       TileSources.get_sources tsAC "a,c" (some 6) =
         .error (errorNotFound (mergeErrorMsg c.1 c.2)))) :=
  ⟨rfl, get_sources_zoom_independent_checks tsAC "a,c" 6 [srcA, srcC] rfl⟩
